import Mathlib

/-!
Shallow embedding of `src/circuit_breaker/circuit_breaker.py`
(repository cho0o0/circuit-breaker).

Modelling conventions:
- Python non-negative ints (configuration values, counters, the computed
  timeout in minutes) are `Nat`; the spec's data model declares every
  configuration field non-negative, and the counters only ever hold
  non-negative values.
- `time.time()` returns a real-valued timestamp; timestamps and elapsed
  times are `ℚ`.  Within one `call` the clock is read as a single
  instant `now`.
- `random.randint(-r, r)` is modelled by passing the drawn integer as an
  explicit argument `jitter : Int`; a draw is valid when it lies in
  `[-r, r]` where `r = jitter_range t` mirrors the local variable
  `jitter_range = max(1, int(timeout_minutes * 0.1))` of the source.
  `int(t * 0.1)` truncates toward zero and coincides with the truncating
  division `t / 10` on exactly-representable magnitudes, so
  `jitter_range t = max 1 (t / 10)`.
- A call of the wrapped operation `func(*args, **kwargs)` is modelled by
  its result `r : Except ε α` (raise `e` or return `v`); raising an
  exception from `call` is modelled by the `CallOutcome` sum.
-/

/-- `CircuitBreakerState` enum of the source: CLOSED, OPEN, HALF_OPEN. -/
inductive CircuitBreakerState where
  | closed
  | open_
  | half_open
deriving DecidableEq, Repr

/-- The mutable breaker object: the five configuration fields and the four
mutable fields, in the order `__init__` assigns them. -/
structure Breaker where
  failure_threshold : Nat
  base_interval_minutes : Nat
  fixed_interval_retries : Nat
  max_exponential_retries : Nat
  jitter_enabled : Bool
  failure_count : Nat
  consecutive_circuit_breaks : Nat
  last_failure_time : Option ℚ
  state : CircuitBreakerState
deriving DecidableEq, Repr

/-- A fresh breaker as built by `__init__`: counters zero, no failure
recorded, state CLOSED. -/
def init_breaker (ft base fixed maxExp : Nat) (jit : Bool) : Breaker :=
  ⟨ft, base, fixed, maxExp, jit, 0, 0, none, CircuitBreakerState.closed⟩

/-- The local variable `jitter_range = max(1, int(timeout_minutes * 0.1))`
of `_get_current_recovery_timeout_minutes`; `int(t * 0.1)` truncates, which
on exactly-representable magnitudes is the truncating division `t / 10`. -/
def jitter_range (t : Nat) : Nat :=
  max 1 (t / 10)

/-- For comparison with the source only: the jitter radius as the spec
words it, `ceil(timeout * 0.1)` with a minimum magnitude of 1 unit.
On `Nat`, `ceil (t / 10) = (t + 9) / 10`. -/
def spec_jitter_range (t : Nat) : Nat :=
  max 1 ((t + 9) / 10)

/-- `_get_current_recovery_timeout_minutes`, with the random draw
`random.randint(-jitter_range, jitter_range)` passed in as `jitter`.
Mirrors the source: `consecutive_circuit_breaks == 0` returns the base
interval at once (before the jitter block); otherwise the fixed phase
(`<= fixed_interval_retries`) keeps the base interval and the exponential
phase computes `base * base ^ exponential_attempt` with the attempt capped
at `max_exponential_retries`; jitter, when enabled, adds the draw and
clamps at a minimum of 1. -/
def get_current_recovery_timeout_minutes (b : Breaker) (jitter : Int) : Nat :=
  if b.consecutive_circuit_breaks = 0 then
    b.base_interval_minutes
  else
    let timeout_minutes :=
      if b.consecutive_circuit_breaks ≤ b.fixed_interval_retries then
        b.base_interval_minutes
      else
        b.base_interval_minutes *
          b.base_interval_minutes ^
            min (b.consecutive_circuit_breaks - b.fixed_interval_retries)
              b.max_exponential_retries
    if b.jitter_enabled then
      (max 1 ((timeout_minutes : Int) + jitter)).toNat
    else
      timeout_minutes

/-- `_should_attempt_reset`: true when no failure time is recorded, else
when `time.time() - last_failure_time >= current_timeout_minutes * 60`. -/
def should_attempt_reset (b : Breaker) (now : ℚ) (j : Int) : Bool :=
  match b.last_failure_time with
  | none => true
  | some t =>
      decide (now - t ≥ ((get_current_recovery_timeout_minutes b j * 60 : Nat) : ℚ))

/-- `_on_success`: reset both counters and close the circuit. -/
def on_success (b : Breaker) : Breaker :=
  { b with
    failure_count := 0
    consecutive_circuit_breaks := 0
    state := CircuitBreakerState.closed }

/-- `_on_failure`: bump `failure_count`, record `last_failure_time = now`;
at or above the threshold, set `consecutive_circuit_breaks` (incremented
when the failure happened in HALF_OPEN, otherwise 1) and open the circuit. -/
def on_failure (b : Breaker) (now : ℚ) : Breaker :=
  let b1 := { b with
    failure_count := b.failure_count + 1
    last_failure_time := some now }
  if b1.failure_count ≥ b1.failure_threshold then
    if b1.state = CircuitBreakerState.half_open then
      { b1 with
        consecutive_circuit_breaks := b1.consecutive_circuit_breaks + 1
        state := CircuitBreakerState.open_ }
    else
      { b1 with
        consecutive_circuit_breaks := 1
        state := CircuitBreakerState.open_ }
  else
    b1

/-- Result of one guarded call: rejected without invoking the operation
(the circuit-open exception, carrying the minutes figure interpolated into
its message), or the operation's value returned, or its error re-raised. -/
inductive CallOutcome (ε α : Type) where
  | rejected (reported_minutes : Nat)
  | returned (v : α)
  | raised (e : ε)
deriving DecidableEq, Repr

/-- Whether the outcome is the circuit-open rejection. -/
def CallOutcome.isRejected {ε α : Type} : CallOutcome ε α → Bool
  | CallOutcome.rejected _ => true
  | _ => false

/-- The `try:`/`except:` block of `call`: invoke the operation, run
`_on_success` and return the value, or run `_on_failure` and re-raise the
original error. -/
def invoke_op {ε α : Type} (b : Breaker) (now : ℚ) (r : Except ε α) :
    Breaker × CallOutcome ε α :=
  match r with
  | Except.ok v => (on_success b, CallOutcome.returned v)
  | Except.error e => (on_failure b now, CallOutcome.raised e)

/-- `call`: in OPEN state, either transition to HALF_OPEN (when the reset
check passes) and invoke, or raise the circuit-open exception whose message
interpolates a freshly computed `current_timeout_minutes` (a second jitter
draw `j2`); in any other state, invoke directly.  `j1` is the draw consumed
by the reset check, `r` the wrapped operation's result. -/
def call {ε α : Type} (b : Breaker) (now : ℚ) (j1 j2 : Int) (r : Except ε α) :
    Breaker × CallOutcome ε α :=
  if b.state = CircuitBreakerState.open_ then
    if should_attempt_reset b now j1 then
      invoke_op { b with state := CircuitBreakerState.half_open } now r
    else
      (b, CallOutcome.rejected (get_current_recovery_timeout_minutes b j2))
  else
    invoke_op b now r

/-- One call event of a trace: the instant of the call, the two jitter
draws, and the wrapped operation's result. -/
structure CallEvent where
  now : ℚ
  j1 : Int
  j2 : Int
  r : Except Unit Unit

/-- Fold a trace of call events over a breaker, keeping the evolved state. -/
def run_calls (b : Breaker) (events : List CallEvent) : Breaker :=
  events.foldl (fun acc e => (call acc e.now e.j1 e.j2 e.r).1) b

/-- The retry-phase label of `get_status_info`, with the embedded attempt
numbers kept structured instead of interpolated into a string. -/
inductive RetryPhase where
  | closed
  | fixed_interval (attempt total : Nat)
  | exponential_interval (attempt total : Nat)
deriving DecidableEq, Repr

/-- The dictionary returned by `get_status_info`, with the `config`
sub-dictionary flattened into the four `cfg_` fields. -/
structure StatusInfo where
  state : CircuitBreakerState
  failure_count : Nat
  consecutive_circuit_breaks : Nat
  retry_phase : RetryPhase
  current_recovery_timeout_minutes : Nat
  time_until_retry_minutes : Option ℚ
  cfg_base_interval_minutes : Nat
  cfg_fixed_interval_retries : Nat
  cfg_max_exponential_retries : Nat
  cfg_jitter_enabled : Bool
deriving DecidableEq, Repr

/-- `get_status_info`: computes the current timeout (one jitter draw `j`),
the remaining minutes until retry (only in OPEN state with a truthy
`last_failure_time`; Python's truthiness makes the timestamp `0` falsy),
and the retry-phase label.  The function assigns no attribute of `self`;
the breaker component of the result is the breaker it was called on. -/
def get_status_info (b : Breaker) (now : ℚ) (j : Int) :
    StatusInfo × Breaker :=
  let current := get_current_recovery_timeout_minutes b j
  let time_until_retry : Option ℚ :=
    match b.last_failure_time with
    | some t =>
        if b.state = CircuitBreakerState.open_ ∧ t ≠ 0 then
          some (max 0 ((current : ℚ) - (now - t) / 60))
        else
          none
    | none => none
  let retry_phase :=
    if b.consecutive_circuit_breaks = 0 then
      RetryPhase.closed
    else if b.consecutive_circuit_breaks ≤ b.fixed_interval_retries then
      RetryPhase.fixed_interval b.consecutive_circuit_breaks
        b.fixed_interval_retries
    else
      RetryPhase.exponential_interval
        (min (b.consecutive_circuit_breaks - b.fixed_interval_retries)
          b.max_exponential_retries)
        b.max_exponential_retries
  (⟨b.state, b.failure_count, b.consecutive_circuit_breaks, retry_phase,
    current, time_until_retry, b.base_interval_minutes,
    b.fixed_interval_retries, b.max_exponential_retries,
    b.jitter_enabled⟩, b)

/-- C1: with jitter disabled, the recovery-timeout calculator returns the
base interval `B` when `consecutive_circuit_breaks = k` is at most
`fixed_interval_retries = F` (including `k = 0`), and
`B * B ^ min (k - F) M` when `k > F`, where `M = max_exponential_retries`. -/
theorem recovery_timeout_phase_law (b : Breaker) (j : Int)
    (hjit : b.jitter_enabled = false) :
    get_current_recovery_timeout_minutes b j =
      if b.consecutive_circuit_breaks ≤ b.fixed_interval_retries then
        b.base_interval_minutes
      else
        b.base_interval_minutes *
          b.base_interval_minutes ^
            min (b.consecutive_circuit_breaks - b.fixed_interval_retries)
              b.max_exponential_retries := by
  unfold get_current_recovery_timeout_minutes
  rcases Nat.eq_zero_or_pos b.consecutive_circuit_breaks with h0 | hpos
  · simp [h0]
  · rw [if_neg (Nat.pos_iff_ne_zero.mp hpos), hjit]
    simp

/-- Witness for C1 at `B = 5`, `F = 3`, `M = 5`, `k = 4`, jitter disabled:
the exponential phase gives `5 * 5 ^ 1 = 25`. -/
theorem recovery_timeout_phase_law_witness :
    get_current_recovery_timeout_minutes
      (Breaker.mk 5 5 3 5 false 0 4 none CircuitBreakerState.closed) 0 = 25 := by
  have h := recovery_timeout_phase_law
    (Breaker.mk 5 5 3 5 false 0 4 none CircuitBreakerState.closed) 0 rfl
  simpa using h

/-- C6: the success handler zeroes `failure_count` and
`consecutive_circuit_breaks`, closes the circuit, and is idempotent:
applying it twice yields the same breaker as applying it once. -/
theorem on_success_resets_and_idempotent (b : Breaker) :
    (on_success b).failure_count = 0 ∧
    (on_success b).consecutive_circuit_breaks = 0 ∧
    (on_success b).state = CircuitBreakerState.closed ∧
    on_success (on_success b) = on_success b :=
  ⟨rfl, rfl, rfl, rfl⟩

/-- C9: the status snapshot is read-only: the breaker that
`get_status_info` was called on comes back unchanged in every field
(the Python body performs no attribute assignment). -/
theorem get_status_info_readonly (b : Breaker) (now : ℚ) (j : Int) :
    (get_status_info b now j).2 = b :=
  rfl

/-- C7: elapsed time exactly equal to the current recovery timeout counts
as enough: the reset check returns true and the call proceeds as a
HALF_OPEN trial instead of being rejected. -/
theorem reset_boundary_exact_elapsed {ε α : Type} (b : Breaker)
    (now t : ℚ) (j1 j2 : Int) (r : Except ε α)
    (hs : b.state = CircuitBreakerState.open_)
    (ht : b.last_failure_time = some t)
    (helapsed : now - t = ((get_current_recovery_timeout_minutes b j1 * 60 : Nat) : ℚ)) :
    should_attempt_reset b now j1 = true ∧
    call b now j1 j2 r =
      invoke_op { b with state := CircuitBreakerState.half_open } now r := by
  have hreset : should_attempt_reset b now j1 = true := by
    unfold should_attempt_reset
    rw [ht]
    exact decide_eq_true (le_of_eq helapsed.symm)
  refine ⟨hreset, ?_⟩
  unfold call
  rw [hs, if_pos rfl, hreset]
  simp

/-- Witness for C7: an OPEN breaker (`B = 5`, jitter disabled, one
consecutive break) that failed at time 0, checked at time 300 seconds,
exactly `5 * 60`: the reset check passes and the trial call runs. -/
theorem reset_boundary_exact_elapsed_witness :
    should_attempt_reset
      (Breaker.mk 5 5 3 5 false 5 1 (some 0) CircuitBreakerState.open_) 300 0 = true ∧
    call (Breaker.mk 5 5 3 5 false 5 1 (some 0) CircuitBreakerState.open_)
        300 0 0 (Except.error 7 : Except Nat Nat) =
      invoke_op
        (Breaker.mk 5 5 3 5 false 5 1 (some 0) CircuitBreakerState.half_open)
        300 (Except.error 7 : Except Nat Nat) := by
  have h5 : get_current_recovery_timeout_minutes
      (Breaker.mk 5 5 3 5 false 5 1 (some 0) CircuitBreakerState.open_) 0 = 5 := by
    decide
  have h := reset_boundary_exact_elapsed
    (Breaker.mk 5 5 3 5 false 5 1 (some 0) CircuitBreakerState.open_)
    300 0 0 0 (Except.error 7 : Except Nat Nat) rfl rfl (by rw [h5]; norm_num)
  exact h

/-- C8: whenever the wrapped operation is invoked and raises `e`, `call`
performs the failure bookkeeping (`_on_failure` on the breaker, with the
OPEN → HALF_OPEN transition applied first when the call was admitted from
OPEN) and re-raises exactly the original error `e`. -/
theorem underlying_error_reraised_unchanged {ε α : Type} (b : Breaker)
    (now : ℚ) (j1 j2 : Int) (e : ε)
    (hallow : b.state = CircuitBreakerState.open_ →
      should_attempt_reset b now j1 = true) :
    call b now j1 j2 (Except.error e : Except ε α) =
      (on_failure
        (if b.state = CircuitBreakerState.open_ then
          { b with state := CircuitBreakerState.half_open }
        else b) now,
       CallOutcome.raised e) := by
  unfold call
  by_cases hb : b.state = CircuitBreakerState.open_
  · rw [if_pos hb, if_pos hb, hallow hb]
    simp [invoke_op]
  · rw [if_neg hb, if_neg hb]
    simp [invoke_op]

/-- Witness for C8: a CLOSED breaker below threshold; the call re-raises
the operation's error `42` untouched after the failure bookkeeping. -/
theorem underlying_error_reraised_unchanged_witness :
    call (Breaker.mk 5 5 3 5 false 0 0 none CircuitBreakerState.closed)
        0 0 0 (Except.error 42 : Except Nat Nat) =
      (on_failure (Breaker.mk 5 5 3 5 false 0 0 none CircuitBreakerState.closed) 0,
       CallOutcome.raised 42) := by
  have h := underlying_error_reraised_unchanged
    (Breaker.mk 5 5 3 5 false 0 0 none CircuitBreakerState.closed)
    (α := Nat) 0 0 0 42 (by intro hc; cases hc)
  simpa using h

/-- Counterexample to C3: an OPEN breaker (`B = 10` minutes, jitter
disabled, one consecutive break) that failed at time 0 and is called again
at 180 seconds (3 minutes elapsed) is rejected with the full timeout 10,
while the remaining wait the claim requires is `10 - 180/60 = 7`. -/
theorem open_error_reports_full_timeout_cex :
    (call (Breaker.mk 5 10 3 5 false 1 1 (some 0) CircuitBreakerState.open_)
        180 0 0 (Except.error 0 : Except Nat Nat)).2 =
      CallOutcome.rejected 10 ∧
    (10 : ℚ) - (180 - 0) / 60 = 7 ∧
    (10 : Nat) ≠ 7 := by
  have h10 : get_current_recovery_timeout_minutes
      (Breaker.mk 5 10 3 5 false 1 1 (some 0) CircuitBreakerState.open_) 0 = 10 := by
    decide
  have hres : should_attempt_reset
      (Breaker.mk 5 10 3 5 false 1 1 (some 0) CircuitBreakerState.open_) 180 0 = false := by
    simp only [should_attempt_reset, h10]
    norm_num
  refine ⟨?_, by norm_num, by decide⟩
  simp [call, hres, h10]

/-- C3 amended: when `call` rejects without invoking the operation, the
circuit-open error carries the full current recovery timeout in minutes
(recomputed at rejection time, on a fresh jitter draw `j2`), not that
timeout reduced by the time already elapsed since the last failure. -/
theorem open_error_carries_current_timeout {ε α : Type} (b : Breaker)
    (now : ℚ) (j1 j2 : Int) (r : Except ε α)
    (hs : b.state = CircuitBreakerState.open_)
    (hr : should_attempt_reset b now j1 = false) :
    call b now j1 j2 r =
      (b, CallOutcome.rejected (get_current_recovery_timeout_minutes b j2)) := by
  unfold call
  rw [hs, if_pos rfl, hr]
  simp

/-- Witness for the amended C3 at the breaker of the counterexample: the
rejection reports 10, the full current timeout. -/
theorem open_error_carries_current_timeout_witness :
    call (Breaker.mk 5 10 3 5 false 1 1 (some 0) CircuitBreakerState.open_)
        180 0 0 (Except.error 0 : Except Nat Nat) =
      (Breaker.mk 5 10 3 5 false 1 1 (some 0) CircuitBreakerState.open_,
       CallOutcome.rejected 10) := by
  have h10 : get_current_recovery_timeout_minutes
      (Breaker.mk 5 10 3 5 false 1 1 (some 0) CircuitBreakerState.open_) 0 = 10 := by
    decide
  have hres : should_attempt_reset
      (Breaker.mk 5 10 3 5 false 1 1 (some 0) CircuitBreakerState.open_) 180 0 = false := by
    simp only [should_attempt_reset, h10]
    norm_num
  have h := open_error_carries_current_timeout
    (Breaker.mk 5 10 3 5 false 1 1 (some 0) CircuitBreakerState.open_)
    (α := Nat) 180 0 0 (Except.error 0) rfl hres
  rw [h10] at h
  exact h

/-- Counterexample to C4: with `base_interval_minutes = 0`, jitter enabled
and one consecutive break, the jitter clamp `max(1, 0 + jitter)` forces the
timeout to 1, not 0 (the draw 0 shown here is valid: `jitter_range 0 = 1`). -/
theorem zero_base_jitter_timeout_cex :
    get_current_recovery_timeout_minutes
      (Breaker.mk 5 0 3 5 true 5 1 (some 0) CircuitBreakerState.open_) 0 = 1 ∧
    get_current_recovery_timeout_minutes
      (Breaker.mk 5 0 3 5 true 5 1 (some 0) CircuitBreakerState.open_) 0 ≠ 0 ∧
    jitter_range 0 = 1 := by
  decide

/-- C4 amended: with `base_interval_minutes = 0` the calculator returns 0
whenever jitter is disabled or `consecutive_circuit_breaks = 0` (the early
return skips the jitter block), and returns 1 when jitter is enabled and
`consecutive_circuit_breaks ≥ 1`, for every valid draw. -/
theorem zero_base_interval_timeout (b : Breaker) (j : Int)
    (hB : b.base_interval_minutes = 0)
    (_hj1 : -(jitter_range 0 : Int) ≤ j)
    (hj2 : j ≤ (jitter_range 0 : Int)) :
    get_current_recovery_timeout_minutes b j =
      if b.jitter_enabled = true ∧ b.consecutive_circuit_breaks ≠ 0 then 1
      else 0 := by
  have hj2' : j ≤ 1 := by simpa [jitter_range] using hj2
  unfold get_current_recovery_timeout_minutes
  rcases Nat.eq_zero_or_pos b.consecutive_circuit_breaks with h0 | hpos
  · simp [h0, hB]
  · have hk : ¬ b.consecutive_circuit_breaks = 0 := Nat.pos_iff_ne_zero.mp hpos
    cases hjit : b.jitter_enabled
    · simp [hk, hB, hjit]
    · simp only [hk, hB, hjit, if_false, if_true, ite_self, zero_mul,
        Nat.cast_zero, zero_add, ne_eq, not_false_iff, and_true, ite_true,
        eq_self_iff_true, if_neg hk]
      omega

/-- Witness for the amended C4: `B = 0`, two consecutive breaks, jitter
enabled, draw `-1`: the timeout is 1. -/
theorem zero_base_interval_timeout_witness :
    get_current_recovery_timeout_minutes
      (Breaker.mk 5 0 3 5 true 5 2 (some 0) CircuitBreakerState.open_) (-1) = 1 := by
  have h := zero_base_interval_timeout
    (Breaker.mk 5 0 3 5 true 5 2 (some 0) CircuitBreakerState.open_) (-1)
    rfl (by decide) (by decide)
  simpa using h

/-- Counterexample to C5: at a jitter-free timeout of `t = 15` the source's
jitter radius is `max(1, int(15 * 0.1)) = max(1, 1) = 1` — truncation, not
the `ceil(15 * 0.1) = 2` the claim states — so with `B = 15`, one
consecutive break and the maximal valid draw the result is 16, while the
claim's radius 2 would also allow 17. -/
theorem jitter_range_truncates_cex :
    jitter_range 15 = 1 ∧
    spec_jitter_range 15 = 2 ∧
    get_current_recovery_timeout_minutes
      (Breaker.mk 5 15 1 5 true 0 1 none CircuitBreakerState.closed)
      (jitter_range 15 : Int) = 16 := by
  decide

/-- With jitter enabled and at least one consecutive break, the calculator
is the clamp `max(1, t + j)` of the jitter-disabled timeout `t` of the same
state plus the raw draw `j`. -/
theorem timeout_jitter_clamp (b : Breaker) (j : Int)
    (hjit : b.jitter_enabled = true)
    (hk : b.consecutive_circuit_breaks ≠ 0) :
    get_current_recovery_timeout_minutes b j =
      (max 1 ((get_current_recovery_timeout_minutes
        { b with jitter_enabled := false } 0 : Int) + j)).toNat := by
  unfold get_current_recovery_timeout_minutes
  simp [hk, hjit]

/-- C5 amended: with jitter enabled and `consecutive_circuit_breaks ≥ 1`,
the calculator perturbs the jitter-disabled timeout `t0` of the same state
by the draw `j` taken uniformly from `[-r, r]` with
`r = max(1, int(t0 * 0.1))` — truncation, not ceiling — and clamps the sum
to a minimum of 1; hence every outcome lies in
`[max(1, t0 - r), t0 + r]`. -/
theorem jitter_bounds (b : Breaker) (j : Int) (t0 : Nat)
    (hjit : b.jitter_enabled = true)
    (hk : b.consecutive_circuit_breaks ≠ 0)
    (ht0 : get_current_recovery_timeout_minutes
      { b with jitter_enabled := false } 0 = t0)
    (hj1 : -(jitter_range t0 : Int) ≤ j)
    (hj2 : j ≤ (jitter_range t0 : Int)) :
    get_current_recovery_timeout_minutes b j = (max 1 ((t0 : Int) + j)).toNat ∧
    max 1 (t0 - jitter_range t0) ≤ get_current_recovery_timeout_minutes b j ∧
    get_current_recovery_timeout_minutes b j ≤ t0 + jitter_range t0 := by
  have key := timeout_jitter_clamp b j hjit hk
  rw [ht0] at key
  have hr1 : 1 ≤ jitter_range t0 := le_max_left 1 (t0 / 10)
  refine ⟨key, ?_, ?_⟩
  · rw [key]; omega
  · rw [key]; omega

/-- Witness for the amended C5 at `B = 15`, `k = 1 ≤ F = 1`, draw `j = 1`:
`t0 = 15`, radius 1, outcome `16 ∈ [14, 16]`. -/
theorem jitter_bounds_witness :
    get_current_recovery_timeout_minutes
      (Breaker.mk 5 15 1 5 true 0 1 none CircuitBreakerState.closed) 1 =
        (max 1 ((15 : Int) + 1)).toNat ∧
    max 1 (15 - jitter_range 15) ≤
      get_current_recovery_timeout_minutes
        (Breaker.mk 5 15 1 5 true 0 1 none CircuitBreakerState.closed) 1 ∧
    get_current_recovery_timeout_minutes
      (Breaker.mk 5 15 1 5 true 0 1 none CircuitBreakerState.closed) 1 ≤
        15 + jitter_range 15 := by
  exact jitter_bounds
    (Breaker.mk 5 15 1 5 true 0 1 none CircuitBreakerState.closed) 1 15
    rfl (by decide) (by decide) (by decide) (by decide)

/-- `_on_failure` below the threshold only bumps the counter and records
the failure time. -/
theorem on_failure_below_threshold (b : Breaker) (now : ℚ)
    (h : b.failure_count + 1 < b.failure_threshold) :
    on_failure b now = { b with
      failure_count := b.failure_count + 1
      last_failure_time := some now } := by
  simp only [on_failure]
  rw [if_neg (by omega : ¬ (b.failure_count + 1 ≥ b.failure_threshold))]

/-- `_on_failure` reaching the threshold outside HALF_OPEN opens the
circuit with `consecutive_circuit_breaks = 1`. -/
theorem on_failure_reaches_threshold (b : Breaker) (now : ℚ)
    (h : b.failure_threshold ≤ b.failure_count + 1)
    (hs : b.state ≠ CircuitBreakerState.half_open) :
    on_failure b now = { b with
      failure_count := b.failure_count + 1
      last_failure_time := some now
      consecutive_circuit_breaks := 1
      state := CircuitBreakerState.open_ } := by
  simp only [on_failure]
  rw [if_pos (h : b.failure_count + 1 ≥ b.failure_threshold), if_neg hs]

/-- `_on_failure` records `last_failure_time = now` on every branch. -/
theorem on_failure_records_time (b : Breaker) (now : ℚ) :
    (on_failure b now).last_failure_time = some now := by
  simp only [on_failure]
  split
  · split <;> rfl
  · rfl

/-- A call from a non-OPEN state whose operation raises performs exactly
the failure bookkeeping and re-raises. -/
theorem call_not_open_fail {ε α : Type} (b : Breaker) (now : ℚ)
    (j1 j2 : Int) (e : ε) (h : b.state ≠ CircuitBreakerState.open_) :
    call b now j1 j2 (Except.error e : Except ε α) =
      (on_failure b now, CallOutcome.raised e) := by
  unfold call
  rw [if_neg h]
  rfl

/-- Auxiliary induction for C2: from CLOSED with
`failure_count + |L| = failure_threshold`, a non-empty trace of calls whose
operations all fail drives the breaker to OPEN with a recorded failure
time. -/
theorem run_failures_open (L : List CallEvent) : ∀ (b : Breaker),
    (∀ e ∈ L, e.r = Except.error ()) →
    b.state = CircuitBreakerState.closed →
    b.failure_count + L.length = b.failure_threshold →
    L ≠ [] →
    (run_calls b L).state = CircuitBreakerState.open_ ∧
    ∃ t, (run_calls b L).last_failure_time = some t := by
  induction L with
  | nil =>
    intro b _ _ _ hne
    exact absurd rfl hne
  | cons e L ih =>
    intro b hall hs hlen _
    have her : e.r = Except.error () := hall e (List.mem_cons_self e L)
    have hno : b.state ≠ CircuitBreakerState.open_ := by
      rw [hs]; intro hc; cases hc
    have hstep : (call b e.now e.j1 e.j2 e.r).1 = on_failure b e.now := by
      rw [her, call_not_open_fail b e.now e.j1 e.j2 () hno]
    have hrun : run_calls b (e :: L) = run_calls (on_failure b e.now) L := by
      show run_calls (call b e.now e.j1 e.j2 e.r).1 L =
        run_calls (on_failure b e.now) L
      rw [hstep]
    cases L with
    | nil =>
      have hT : b.failure_count + 1 = b.failure_threshold := by
        simpa using hlen
      have hns : b.state ≠ CircuitBreakerState.half_open := by
        rw [hs]; intro hc; cases hc
      rw [hrun, on_failure_reaches_threshold b e.now (by omega) hns]
      exact ⟨rfl, ⟨e.now, rfl⟩⟩
    | cons e2 L2 =>
      have hlt : b.failure_count + 1 < b.failure_threshold := by
        simp only [List.length_cons] at hlen
        omega
      rw [hrun, on_failure_below_threshold b e.now hlt]
      exact ih _ (fun x hx => hall x (List.mem_cons_of_mem e hx)) hs
        (by simp only [List.length_cons] at hlen ⊢; omega)
        (by simp)

/-- C2: from a CLOSED breaker with a clean failure count and a positive
threshold, a trace of exactly `failure_threshold` calls whose wrapped
operations all fail leaves the breaker OPEN, and every subsequent call made
before the current recovery timeout has elapsed since the recorded
`last_failure_time` is rejected with the circuit-open error, leaving the
breaker unchanged and never invoking the wrapped operation (the rejection
is the same whatever the operation would have done). -/
theorem consecutive_failures_open_and_reject (b : Breaker) (L : List CallEvent)
    (hall : ∀ e ∈ L, e.r = Except.error ())
    (hs : b.state = CircuitBreakerState.closed)
    (hfc : b.failure_count = 0)
    (hth : 1 ≤ b.failure_threshold)
    (hlen : L.length = b.failure_threshold) :
    (run_calls b L).state = CircuitBreakerState.open_ ∧
    ∀ (now t : ℚ) (j1 j2 : Int) (r : Except Unit Unit),
      (run_calls b L).last_failure_time = some t →
      now - t < ((get_current_recovery_timeout_minutes (run_calls b L) j1 * 60 : Nat) : ℚ) →
      call (run_calls b L) now j1 j2 r =
        (run_calls b L,
         CallOutcome.rejected
          (get_current_recovery_timeout_minutes (run_calls b L) j2)) := by
  have hne : L ≠ [] := by
    intro hc
    rw [hc] at hlen
    simp at hlen
    omega
  obtain ⟨hopen, _, _⟩ := run_failures_open L b hall hs (by omega) hne
  refine ⟨hopen, ?_⟩
  intro now t j1 j2 r hlf hlt
  have hres : should_attempt_reset (run_calls b L) now j1 = false := by
    simp only [should_attempt_reset, hlf, decide_eq_false_iff_not, ge_iff_le,
      not_le]
    exact hlt
  unfold call
  rw [hopen, if_pos rfl, hres]
  simp

/-- Witness for C2: threshold 1, one failing call at time 0 opens the
circuit (`B = 5`, jitter disabled); a call at 30 seconds (before the
300-second timeout) is rejected with the circuit-open error carrying 5
minutes, and the breaker is left unchanged. -/
theorem consecutive_failures_open_and_reject_witness :
    (run_calls (Breaker.mk 1 5 3 5 false 0 0 none CircuitBreakerState.closed)
      [CallEvent.mk 0 0 0 (Except.error ())]).state =
        CircuitBreakerState.open_ ∧
    call (run_calls (Breaker.mk 1 5 3 5 false 0 0 none CircuitBreakerState.closed)
        [CallEvent.mk 0 0 0 (Except.error ())]) 30 0 0
        (Except.error () : Except Unit Unit) =
      (run_calls (Breaker.mk 1 5 3 5 false 0 0 none CircuitBreakerState.closed)
        [CallEvent.mk 0 0 0 (Except.error ())],
       CallOutcome.rejected 5) := by
  have h := consecutive_failures_open_and_reject
    (Breaker.mk 1 5 3 5 false 0 0 none CircuitBreakerState.closed)
    [CallEvent.mk 0 0 0 (Except.error ())]
    (by intro e he; simp only [List.mem_singleton] at he; subst he; rfl)
    rfl rfl (by decide) rfl
  have hlf : (run_calls (Breaker.mk 1 5 3 5 false 0 0 none CircuitBreakerState.closed)
      [CallEvent.mk 0 0 0 (Except.error ())]).last_failure_time = some 0 := rfl
  have h5 : get_current_recovery_timeout_minutes
      (run_calls (Breaker.mk 1 5 3 5 false 0 0 none CircuitBreakerState.closed)
        [CallEvent.mk 0 0 0 (Except.error ())]) 0 = 5 := rfl
  refine ⟨h.1, ?_⟩
  have h2 := h.2 30 0 0 0 (Except.error ()) hlf (by rw [h5]; norm_num)
  rw [h5] at h2
  exact h2

/-- One guarded call preserves the invariant "OPEN implies a recorded
failure time": a rejection leaves the breaker untouched, a success closes
the circuit, and a failure records `last_failure_time` before any
transition to OPEN. -/
theorem call_preserves_open_failure_time {ε α : Type} (b : Breaker)
    (now : ℚ) (j1 j2 : Int) (r : Except ε α)
    (hinv : b.state = CircuitBreakerState.open_ →
      b.last_failure_time.isSome = true) :
    (call b now j1 j2 r).1.state = CircuitBreakerState.open_ →
    (call b now j1 j2 r).1.last_failure_time.isSome = true := by
  unfold call
  by_cases hb : b.state = CircuitBreakerState.open_
  · rw [if_pos hb]
    cases hres : should_attempt_reset b now j1
    · simp only [Bool.false_eq_true, if_false]
      intro _
      exact hinv hb
    · simp only [if_true]
      cases r with
      | ok v =>
        intro hc
        simp [invoke_op, on_success] at hc
      | error e =>
        intro _
        simp [invoke_op, on_failure_records_time]
  · rw [if_neg hb]
    cases r with
    | ok v =>
      intro hc
      simp [invoke_op, on_success] at hc
    | error e =>
      intro _
      simp [invoke_op, on_failure_records_time]

/-- The invariant "OPEN implies a recorded failure time" is preserved by
every trace of guarded calls. -/
theorem run_calls_preserves_open_failure_time (L : List CallEvent) :
    ∀ b : Breaker,
    (b.state = CircuitBreakerState.open_ →
      b.last_failure_time.isSome = true) →
    (run_calls b L).state = CircuitBreakerState.open_ →
    (run_calls b L).last_failure_time.isSome = true := by
  induction L with
  | nil =>
    intro b h
    exact h
  | cons e L ih =>
    intro b h
    exact ih _ (call_preserves_open_failure_time b e.now e.j1 e.j2 e.r h)

/-- C10: every breaker constructed fresh and evolved by any sequence of
guarded calls has `last_failure_time` set whenever it is OPEN; the failure
handler records the time before opening the circuit, so the
"no last failure time" early-allow branch of the reset check is
unreachable in OPEN state. -/
theorem open_implies_last_failure_time (ft base fixed maxExp : Nat)
    (jit : Bool) (L : List CallEvent)
    (h : (run_calls (init_breaker ft base fixed maxExp jit) L).state =
      CircuitBreakerState.open_) :
    (run_calls (init_breaker ft base fixed maxExp jit) L).last_failure_time.isSome =
      true := by
  refine run_calls_preserves_open_failure_time L _ ?_ h
  intro hc
  simp [init_breaker] at hc

/-- Witness for C10: a fresh breaker with threshold 1 driven OPEN by one
failing call at time 0 has a recorded failure time. -/
theorem open_implies_last_failure_time_witness :
    (run_calls (init_breaker 1 5 3 5 false)
      [CallEvent.mk 0 0 0 (Except.error ())]).state =
        CircuitBreakerState.open_ ∧
    (run_calls (init_breaker 1 5 3 5 false)
      [CallEvent.mk 0 0 0 (Except.error ())]).last_failure_time.isSome =
        true :=
  ⟨rfl, open_implies_last_failure_time 1 5 3 5 false
    [CallEvent.mk 0 0 0 (Except.error ())] rfl⟩
